import Mathlib

/-!
# Verification of the qobuz-dl orchestration module (`qobuz_dl/core.py`)

This file gives a shallow embedding, in Lean 4, of the resolution-and-
orchestration pipeline of qobuz-dl: URL classification (`get_type`,
`get_id`), container expansion (`handle_url`, `download_list_of_urls`),
idempotent download tracking (`download_from_id` and the download ledger),
best-effort search-result formatting (`PartialFormatter`,
`search_by_type`), the external-playlist importer (`download_lastfm_pl`)
and the playlist assembler (`make_m3u`).

Python exceptions are modelled with `Except PyErr`; a raised exception is
an `.error` value and a `try/except` clause is a `match` that turns the
caught error kinds back into ordinary results.  External collaborators
(the catalog client, the downloader, the tag reader, the download-ledger
store) are passed in as function parameters, so every theorem quantifies
over their behaviour.  Strings that have to be inspected character by
character are handled as `List Char` (`String.toList`).
-/

namespace QobuzCore

/-- Kinds of Python exception that the orchestration code can raise or
catch.  Only the kinds that actually occur in `core.py` are modelled. -/
inductive PyErr where
  | keyError
  | indexError
  | attributeError
  | valueError
  | typeError
deriving DecidableEq, Repr

/-- Abbreviation: the characters of a string literal. -/
def strL (s : String) : List Char := s.toList

/-- Python's `str.split(sep)` on character lists: every occurrence of the
separator starts a new chunk, empty chunks are kept, and splitting the
empty string yields `[[]]` (Python: `"".split("/") == [""]`). -/
def pySplit (sep : Char) : List Char → List (List Char)
  | [] => [[]]
  | c :: cs =>
    match pySplit sep cs with
    | [] => [[]]
    | grp :: rest => if c = sep then [] :: grp :: rest else (c :: grp) :: rest

/-- Python list indexing `l[i]` with negative-index support; out-of-range
access raises `IndexError`. -/
def pyIndex {α : Type} (l : List α) (i : Int) : Except PyErr α :=
  let j : Int := if i < 0 then i + (l.length : Int) else i
  if j < 0 then .error .indexError
  else
    match l.get? j.toNat with
    | some a => .ok a
    | none => .error .indexError

/-- `lStartsWith p s` models `re.match` against a plain literal pattern
`p`: does `s` start with `p`? -/
def lStartsWith : List Char → List Char → Bool
  | [], _ => true
  | _ :: _, [] => false
  | p :: ps, c :: cs => p = c && lStartsWith ps cs

/-- `dropPrefix? p s` consumes the literal `p` from the front of `s`,
returning the remainder; `none` on mismatch.  This is the building block
for the hand-compiled form of the `get_id` regular expression. -/
def dropPrefix? : List Char → List Char → Option (List Char)
  | [], s => some s
  | _ :: _, [] => none
  | a :: ps, b :: cs => if a = b then dropPrefix? ps cs else none

/-! ## Reference classification: `QobuzDL.get_type` and `QobuzDL.get_id`

`get_id` matches the URL against the anchored pattern

    https?://(?:w{0,3}|play|open)\.qobuz\.com/ P (\w+)

where `P` is the alternation of `(?:album|track|artist|playlist|label)/`,
of `[a-z]{2}-[a-z]{2}/album/ SLUG /` with `SLUG` the sub-pattern
`-?\w+(?:-\w+)*-?`, and of `user/library/favorites/`, and raises
`AttributeError` (`None.group`) when the match fails.  The
pattern is compiled by hand into the functions below.  Every alternation
in the pattern is decided by its first characters (the six host literals
are pairwise incompatible, as are the five keyword literals and the three
path shapes), so the backtracking regex engine and this committed-choice
parser accept the same strings and capture the same group. -/

/-- Python's `\w` on the ASCII range: letters, digits and underscore.
(The Unicode word characters beyond ASCII are not modelled; every string
examined in this development is ASCII.) -/
def isW (c : Char) : Bool := c.isAlphanum || c = '_'

/-- `https?://` — scheme part of the `get_id` pattern. -/
def matchScheme (s : List Char) : Option (List Char) :=
  match dropPrefix? (strL "https://") s with
  | some r => some r
  | none => dropPrefix? (strL "http://") s

/-- `(?:w{0,3}|play|open)\.qobuz\.com/` — host part of the `get_id`
pattern; the alternatives are tried in the regex engine's order. -/
def hostLits : List (List Char) :=
  [strL "www.qobuz.com/", strL "ww.qobuz.com/", strL "w.qobuz.com/",
   strL ".qobuz.com/", strL "play.qobuz.com/", strL "open.qobuz.com/"]

def tryAlts : List (List Char) → List Char → Option (List Char)
  | [], _ => none
  | p :: ps, s =>
    match dropPrefix? p s with
    | some r => some r
    | none => tryAlts ps s

def matchHost (s : List Char) : Option (List Char) := tryAlts hostLits s

/-- `(?:album|track|artist|playlist|label)/` — first path alternative. -/
def keywordLits : List (List Char) :=
  [strL "album/", strL "track/", strL "artist/", strL "playlist/",
   strL "label/"]

def noDoubleHyphen : List Char → Bool
  | '-' :: '-' :: _ => false
  | _ :: rest => noDoubleHyphen rest
  | [] => true

/-- The store-URL artist slug `-?\w+(?:-\w+)*-?`: a run of word
characters and isolated hyphens (no `--`, at least one word character).
This is exactly the language of that sub-pattern: stripping the optional
boundary hyphens leaves alternating word blocks separated by single
hyphens. -/
def isSlug (r : List Char) : Bool :=
  r.all (fun c => isW c || c = '-') && r.any isW && noDoubleHyphen r

/-- The literal `/` that terminates the store slug. -/
def matchSlash : List Char → Option (List Char)
  | '/' :: r3 => some r3
  | _ => none

/-- `SLUG /` — the slug region of the store path runs to the first
character that is neither a word character nor a hyphen; that character
must be `/` and the region must be a valid slug. -/
def matchSlugSlash (r : List Char) : Option (List Char) :=
  if isSlug (r.takeWhile (fun c => isW c || c = '-')) then
    matchSlash (r.drop (r.takeWhile (fun c => isW c || c = '-')).length)
  else none

/-- `[a-z]{2}-[a-z]{2}/album/ SLUG /` — second path alternative
(locale-prefixed store album URL), with `SLUG` as in `isSlug`. -/
def matchStorePath (s : List Char) : Option (List Char) :=
  match s with
  | c0 :: c1 :: c2 :: c3 :: c4 :: rest =>
    if c0.isLower && c1.isLower && c2 = '-' && c3.isLower && c4.isLower then
      (dropPrefix? (strL "/album/") rest).bind matchSlugSlash
    else none
  | _ => none

/-- The full path alternation of the `get_id` pattern. -/
def matchPath (s : List Char) : Option (List Char) :=
  match tryAlts keywordLits s with
  | some r => some r
  | none =>
    match matchStorePath s with
    | some r => some r
    | none => dropPrefix? (strL "user/library/favorites/") s

/-- `QobuzDL.get_id` (core.py:98-104): the capture group `(\w+)` of the
URL pattern; `none` models the `AttributeError` raised by
`None.group(1)` when the regex does not match. -/
def get_id (url : List Char) : Option (List Char) :=
  (matchScheme url).bind fun s1 =>
    (matchHost s1).bind fun s2 =>
      (matchPath s2).bind fun s3 =>
        let g := s3.takeWhile isW
        if g.isEmpty then none else some g

/-- The five recognized content types (`possibles` keys in
`handle_url`, and the membership list tested in `get_type`). -/
def urlTypes : List (List Char) :=
  [strL "album", strL "artist", strL "playlist", strL "track", strL "label"]

/-- `QobuzDL.get_type` (core.py:106-121): derives the content type from
the `/`-separated segments of the URL; list indexing may raise
`IndexError`. -/
def get_type (url : List Char) : Except PyErr (List Char) :=
  let parts := pySplit '/' url
  if lStartsWith (strL "http") url then
    match pyIndex parts 3 with
    | .error e => .error e
    | .ok t =>
      if urlTypes.contains t then .ok t
      else if t = strL "user" then pyIndex parts (-1)
      else pyIndex parts 4
  else pyIndex parts 2

/-- The classification steps of `QobuzDL.handle_url` (core.py:166-168):
`get_type`, then the `possibles[url_type]` dictionary lookup (raising
`KeyError` for an unrecognized type), then `get_id` (raising
`AttributeError` when the id pattern does not match). -/
def classify (url : List Char) : Except PyErr (List Char × List Char) :=
  match get_type url with
  | .error e => .error e
  | .ok t =>
    if urlTypes.contains t then
      match get_id url with
      | some i => .ok (t, i)
      | none => .error .attributeError
    else .error .keyError

/-! ## Python values

Catalog metadata and search hits are JSON-like Python objects; `PyVal`
models the fragment the orchestration code touches.  Dictionaries are
association lists (`lookup` finds the first binding, and the concrete
dictionaries in play have distinct keys). -/

inductive PyVal where
  | pNone : PyVal
  | pInt : Int → PyVal
  | pStr : String → PyVal
  | pList : List PyVal → PyVal
  | pDict : List (String × PyVal) → PyVal

/-- Python `d[k]` on a value: `KeyError` when a dictionary lacks the key,
`TypeError` when the value is not subscriptable by a string key. -/
def pyGet (v : PyVal) (k : String) : Except PyErr PyVal :=
  match v with
  | .pDict l =>
    match l.lookup k with
    | some x => .ok x
    | none => .error .keyError
  | _ => .error .typeError

/-- Python `for item in v`: the orchestration code only ever iterates
what the catalog returns as a JSON array; any other shape is modelled as
a `TypeError`. -/
def asPyList (v : PyVal) : Except PyErr (List PyVal) :=
  match v with
  | .pList l => .ok l
  | _ => .error .typeError

/-- Python truthiness (`bool(v)`): `None`, `0`, the empty string and
empty containers are falsy. -/
def pyTruthy (v : PyVal) : Bool :=
  match v with
  | .pNone => false
  | .pInt n => !(n == 0)
  | .pStr s => !(s == "")
  | .pList l => !l.isEmpty
  | .pDict l => !l.isEmpty

/-! ## Download orchestration: `download_from_id` and batches

The download-ledger store (`qobuz_dl.db`) and the transfer routine
(`qobuz_dl.downloader.download_id_by_type`) are external collaborators of
`core.py`.  The downloader is a parameter `dl` giving, per item id, the
outcome of the transfer attempt; the ledger is the `Option (List String)`
state (`none` = no database configured). -/

/-- Outcome of one call to the external downloader collaborator:
success, or one of the two exception kinds that `download_from_id`
catches (`requests.exceptions.RequestException`, `NonStreamable`). -/
inductive DlOutcome where
  | success
  | requestError
  | nonStreamable
deriving DecidableEq

/-- Externally visible result of `download_from_id` for one item. -/
inductive ItemResult where
  | skipped
  | succeeded
  | failed
deriving DecidableEq

/-- Observable actions of `download_from_id`, in order: a call into the
downloader (which performs the catalog fetch and transfer), and an
insertion into the download ledger. -/
inductive Event where
  | fetch (id : String)
  | insert (id : String)
deriving DecidableEq

/-- Modelled from the spec: `qobuz_dl.db.handle_download_id`, whose
source file is not part of this repository slice.  Per the spec (§6
Download Ledger), it implements `contains(id)` (`add_id=False`) and
`insert(id)` (`add_id=True`) over the persistent store, and the absence
of a configured ledger disables skip/record behaviour entirely.  Returns
the new ledger state and the membership answer. -/
def handle_download_id (db : Option (List String)) (item_id : String)
    (add_id : Bool) : Option (List String) × Bool :=
  match db with
  | none => (none, false)
  | some l =>
    if add_id then (some (item_id :: l), true)
    else (some l, l.contains item_id)

/-- `QobuzDL.download_from_id` (core.py:123-146): consult the ledger;
if the id is present, skip; otherwise run the downloader, record the id
in the ledger on success, and catch network/non-streamable errors
(leaving the ledger unchanged).  Returns the new ledger state, the trace
of observable events in order, and the item result. -/
def download_from_id (db : Option (List String))
    (dl : String → DlOutcome) (item_id : String) :
    Option (List String) × List Event × ItemResult :=
  let q := handle_download_id db item_id false
  if q.2 then (q.1, [], .skipped)
  else
    match dl item_id with
    | .success =>
      let ins := handle_download_id q.1 item_id true
      (ins.1, [.fetch item_id, .insert item_id], .succeeded)
    | _ => (q.1, [.fetch item_id], .failed)

/-- A batch of leaf downloads: `download_from_id` over a list of item
ids, threading the ledger state (this is the per-item loop shared by
`handle_url` and `download_list_of_urls`). -/
def runBatch (db : Option (List String)) (dl : String → DlOutcome) :
    List String → Option (List String) × List (List Event × ItemResult)
  | [] => (db, [])
  | id :: rest =>
    let step := download_from_id db dl id
    let tail_ := runBatch step.1 dl rest
    (tail_.1, (step.2.1, step.2.2) :: tail_.2)

/-! ## Container expansion: `handle_url` and `download_list_of_urls` -/

/-- The `iterable_key` of the `possibles` table in `handle_url`
(core.py:149-164): `tracks` for playlists, `albums` for artists and
labels, none for the leaf types. -/
def iterKey (t : String) : Option String :=
  match t with
  | "playlist" => some "tracks"
  | "artist" => some "albums"
  | "label" => some "albums"
  | _ => none

/-- The `album` flag of the leaf rows of `possibles`: `True` for
`album`, `False` for `track`. -/
def leafIsAlbum (t : String) : Bool := t == "album"

/-- The container branch of `handle_url` (core.py:175-193):
`content = list(func(item_id))`, `content_name = content[0]["name"]`,
`items = [item[iterable_key]["items"] for item in content][0]`, then one
leaf task per `item["id"]`.  Any `KeyError`/`IndexError` raised here is
outside the `try` of `handle_url` and therefore propagates. -/
def expandContainer (content : List PyVal) (key : String) :
    Except PyErr (List (PyVal × Bool)) := do
  let c0 ← pyIndex content 0
  let _name ← pyGet c0 "name"
  let itemFields ← content.mapM (fun item => do
    let sub ← pyGet item key
    pyGet sub "items")
  let items ← pyIndex itemFields 0
  let itemList ← asPyList items
  itemList.mapM (fun item => do
    let i ← pyGet item "id"
    pure (i, key == "albums"))

/-- `QobuzDL.handle_url` (core.py:148-197), up to the leaf tasks it
hands to `download_from_id`.  The catalog client (`qopy`) is the
parameter `client`, mapping `(url_type, item_id)` to the container
metadata list.  The `try`-block catches only `KeyError` and `IndexError`
raised by the three classification steps; errors raised while expanding
the container metadata propagate to the caller. -/
def handle_url (client : String → String → List PyVal) (url : List Char) :
    Except PyErr (List (PyVal × Bool)) :=
  match classify url with
  | .error .keyError => .ok []
  | .error .indexError => .ok []
  | .error e => .error e
  | .ok (t, i) =>
    let ts := t.asString
    let idStr := i.asString
    match iterKey ts with
    | none => .ok [(.pStr idStr, leafIsAlbum ts)]
    | some key => expandContainer (client ts idStr) key

/-- `QobuzDL.download_list_of_urls` (core.py:199-209) restricted to
catalog URLs (the `last.fm` and local-text-file branches dispatch to
other entry points and none of the URLs considered here take them).  The
loop has no exception handling, so the first error aborts the remaining
urls. -/
def download_list_of_urls (client : String → String → List PyVal)
    (urls : List (List Char)) : Except PyErr (List (List (PyVal × Bool))) :=
  urls.mapM (handle_url client)

/-! ## Search formatting: `PartialFormatter` and `search_by_type` -/

/-- One piece of a format template: literal text, or a replacement field
with an access path (`{performer[name]}` has path
`["performer", "name"]`) and a format spec. -/
inductive Seg where
  | lit (s : String)
  | field (path : List String) (spec : String)

/-- `string.Formatter.get_field` semantics for a field path: the first
segment indexes the keyword arguments (the hit), the following
`[name]` segments subscript the intermediate values. -/
def lookupPath (hit : PyVal) : List String → Except PyErr PyVal
  | [] => .ok hit
  | k :: ks => do
    let v ← pyGet hit k
    lookupPath v ks

/-- `PartialFormatter.get_field` (core.py:34-40): `KeyError` and
`AttributeError` are caught and the value becomes `None` (rendered later
as the placeholder); other errors propagate. -/
def pf_get_field (hit : PyVal) (path : List String) : Except PyErr PyVal :=
  match lookupPath hit path with
  | .ok v => .ok v
  | .error .keyError => .ok .pNone
  | .error .attributeError => .ok .pNone
  | .error e => .error e

/-- `str(value)` for the fragment of values a hit can contain.  The
renderings of containers are not inspected by any claim; they are given
a fixed shape here. -/
def pyStrOf : PyVal → String
  | .pNone => "None"
  | .pInt n => toString n
  | .pStr s => s
  | .pList _ => "<list>"
  | .pDict _ => "<dict>"

/-- `format(value, spec)` for the fragment of specs the development
needs: the empty spec is `str(value)`; `d` accepts integers and `s`
accepts strings; a mismatched spec raises `ValueError` for the scalar
types (as CPython does for unknown format codes) and `TypeError` for
`None` and containers (whose `__format__` rejects nonempty specs). -/
def pyFormat (v : PyVal) (spec : String) : Except PyErr String :=
  if spec = "" then .ok (pyStrOf v)
  else
    match v, spec with
    | .pInt n, "d" => .ok (toString n)
    | .pStr s, "s" => .ok s
    | .pNone, _ => .error .typeError
    | .pList _, _ => .error .typeError
    | .pDict _, _ => .error .typeError
    | _, _ => .error .valueError

/-- `PartialFormatter.format_field` (core.py:42-50): falsy values render
as the `missing` placeholder `"n/a"`; a `ValueError` from the underlying
format call renders as the `bad_fmt` placeholder `"n/a"`. -/
def format_field (v : PyVal) (spec : String) : Except PyErr String :=
  if !pyTruthy v then .ok "n/a"
  else
    match pyFormat v spec with
    | .ok s => .ok s
    | .error .valueError => .ok "n/a"
    | .error e => .error e

/-- `PartialFormatter().format(template, **hit)`: render each segment,
fields through `pf_get_field` and `format_field`. -/
def pf_format (tmpl : List Seg) (hit : PyVal) : Except PyErr String := do
  let parts ← tmpl.mapM (fun seg =>
    match seg with
    | .lit s => .ok s
    | .field path spec => do
      let v ← pf_get_field hit path
      format_field v spec)
  pure (String.join parts)

/-- The format template of each `search_by_type` mode (core.py:254-283),
pre-parsed: `"{artist[name]} - {title}"`, `"{name} - ({albums_count}
releases)"`, `"{performer[name]} - {title}"`, `"{name} - ({tracks_count}
releases)"`. -/
def albumTmpl : List Seg :=
  [.field ["artist", "name"] "", .lit " - ", .field ["title"] ""]

def artistTmpl : List Seg :=
  [.field ["name"] "", .lit " - (", .field ["albums_count"] "",
   .lit " releases)"]

def trackTmpl : List Seg :=
  [.field ["performer", "name"] "", .lit " - ", .field ["title"] ""]

def playlistTmpl : List Seg :=
  [.field ["name"] "", .lit " - (", .field ["tracks_count"] "",
   .lit " releases)"]

/-- The `possibles` table of `search_by_type`: result key, template and
`requires_extra` flag per item type (`KeyError` for any other type). -/
def searchMode (itemType : String) : Except PyErr (String × List Seg × Bool) :=
  match itemType with
  | "album" => .ok ("albums", albumTmpl, true)
  | "artist" => .ok ("artists", artistTmpl, false)
  | "track" => .ok ("tracks", trackTmpl, true)
  | "playlist" => .ok ("playlists", playlistTmpl, false)
  | _ => .error .keyError

/-- `QobuzDL.format_duration` (core.py:246-247):
`time.strftime("%H:%M:%S", time.gmtime(duration))` for the durations a
hit carries (non-negative seconds). -/
def pad2 (n : Int) : String :=
  if n < 10 then "0" ++ toString n else toString n

def format_duration (duration : Int) : String :=
  pad2 (duration / 3600 % 24) ++ ":" ++ pad2 (duration / 60 % 60) ++ ":" ++
    pad2 (duration % 60)

/-- `time.gmtime` requires a number; anything else raises `TypeError`. -/
def asDuration (v : PyVal) : Except PyErr Int :=
  match v with
  | .pInt n => .ok n
  | _ => .error .typeError

/-- The rendering of one search hit inside the loop of `search_by_type`
(core.py:290-299): the mode template through `PartialFormatter`, then —
for albums and tracks — the direct subscripts `i["duration"]` and
`i["hires_streamable"]`, which are *not* mediated by the formatter. -/
def renderHit (tmpl : List Seg) (extra : Bool) (hit : PyVal) :
    Except PyErr String := do
  let text ← pf_format tmpl hit
  if extra then do
    let dur ← pyGet hit "duration"
    let d ← asDuration dur
    let hires ← pyGet hit "hires_streamable"
    pure (text ++ " - " ++ format_duration d ++ " [" ++
      (if pyTruthy hires then "HI-RES" else "LOSSLESS") ++ "]")
  else
    pure text

/-- `QobuzDL.search_by_type` (core.py:285-307) from the client's raw
search result to the rendered result lines.  The surrounding
`try`-block catches `KeyError` and `IndexError` anywhere in the loop and
makes the whole call return `None` (modelled as `Option.none`); other
errors propagate. -/
def search_by_type (raw : PyVal) (itemType : String) :
    Except PyErr (Option (List String)) :=
  match (do
    let m ← searchMode itemType
    let keyed ← pyGet raw m.1
    let items ← pyGet keyed "items"
    let l ← asPyList items
    l.mapM (renderHit m.2.1 m.2.2) : Except PyErr (List String)) with
  | .ok lines => .ok (some lines)
  | .error .keyError => .ok none
  | .error .indexError => .ok none
  | .error e => .error e

/-! ## External playlist import: `download_lastfm_pl` -/

/-- The pairing step of `QobuzDL.download_lastfm_pl` (core.py:406-418):
from the scraped artist and title selector lists to the queued query
strings.  The HTML fetch and the CSS selection are external
collaborators; they hand over the two text lists. -/
def download_lastfm_pl (artists titles : List String) : List String :=
  let track_list :=
    if artists.length == titles.length && !artists.isEmpty then
      List.zipWith (fun a t => a ++ " " ++ t) artists titles
    else []
  if track_list.isEmpty then [] else track_list

/-! ## Playlist assembly: `make_m3u` -/

/-- A directory tree on disk: the files and the named sub-directories of
each directory.  `os.walk` visits a directory before its
sub-directories, and `dirs.sort()` makes the visit order deterministic. -/
inductive DirTree where
  | mk (files : List String) (subdirs : List (String × DirTree))

def DirTree.files : DirTree → List String
  | .mk fs _ => fs

def DirTree.subdirs : DirTree → List (String × DirTree)
  | .mk _ sd => sd

/-- Code-point comparison of two names, as Python compares strings. -/
def lexLe : List Char → List Char → Bool
  | [], _ => true
  | _ :: _, [] => false
  | a :: as_, b :: bs => if a = b then lexLe as_ bs else decide (a < b)

/-- `dirs.sort()` (core.py:443). -/
def sortDirs (l : List (String × DirTree)) : List (String × DirTree) :=
  List.insertionSort (fun a b => lexLe a.1.toList b.1.toList = true) l

/-- `os.walk(pl_directory)` with the in-place `dirs.sort()`: every
visited directory as (its path as components from the filesystem root,
its file names), root first, children in sorted order. -/
def walk (root : List String) : DirTree → List (List String × List String)
  | .mk fls sds =>
    (root, fls) :: (sortDirs sds).attach.flatMap
      (fun p => walk (root ++ [p.1.1]) p.1.2)
termination_by t => sizeOf t
decreasing_by
  obtain ⟨⟨nm, tr⟩, hp⟩ := p
  unfold sortDirs at hp
  have hm := (List.mem_insertionSort _).mp hp
  have h1 := List.sizeOf_lt_of_mem hm
  simp only [Prod.mk.sizeOf_spec, DirTree.mk.sizeOf_spec] at h1 ⊢
  omega

/-- `os.path.splitext(f)[-1]`: the suffix from the last dot, except that
a name consisting only of leading dots before it has no extension. -/
def extOf (cs : List Char) : List Char :=
  let lead := cs.takeWhile (fun c => c = '.')
  let rest := cs.drop lead.length
  if rest.contains '.' then
    '.' :: (rest.reverse.takeWhile (fun c => !(c = '.'))).reverse
  else []

/-- `os.path.splitext(file_)[-1] in EXTENSIONS` with
`EXTENSIONS = (".mp3", ".flac")` (core.py:23). -/
def isAudio (f : String) : Bool :=
  extOf f.toList == strL ".mp3" || extOf f.toList == strL ".flac"

/-- `os.path.basename(os.path.normpath(p))` for a path given as
components: its last component. -/
def basenameL (p : List String) : String := p.getLast?.getD ""

/-- The `audio_rel_files` comprehension (core.py:444-452):
`os.path.join(os.path.basename(os.path.normpath(local)), file_)` for
each recognized audio file. -/
def audioRelFiles (loc : List String) (files : List String) : List String :=
  (files.filter isAudio).map (fun f => basenameL loc ++ "/" ++ f)

/-- The `audio_files` comprehension (core.py:453-457): the absolute path
(as components) of each recognized audio file. -/
def audioAbsFiles (loc : List String) (files : List String) :
    List (List String) :=
  (files.filter isAudio).map (fun f => loc ++ [f])

/-- The defensive guard of the walk loop (core.py:458-459): skip the
directory when no audio files were found or the two comprehensions
disagree in length. -/
def m3uGuardSkips (loc : List String) (files : List String) : Bool :=
  (audioAbsFiles loc files).isEmpty ||
    !((audioAbsFiles loc files).length == (audioRelFiles loc files).length)

/-- What the tag reader (mutagen `EasyMP3`/`FLAC`, an external
collaborator per spec §6 Tag Reader) yields for a file: `TITLE`,
`ARTIST` and `int(info.length)`; `none` models any exception in the
`try` block (unreadable tags, missing keys), which the loop swallows
with `continue`. -/
structure TagInfo where
  title : String
  artist : String
  len : Int

/-- One `#EXTINF` playlist entry (core.py:472-474). -/
def extinfEntry (tg : TagInfo) (rel : String) : String :=
  "#EXTINF:" ++ toString tg.len ++ ", " ++ tg.artist ++ " - " ++ tg.title ++
    "\n" ++ rel

/-- The body of the walk loop of `make_m3u` (core.py:442-477) for one
visited directory: the entries contributed by its files. -/
def dirEntries (tags : List String → Option TagInfo) (loc : List String)
    (files : List String) : List String :=
  if m3uGuardSkips loc files then []
  else
    ((audioRelFiles loc files).zip (audioAbsFiles loc files)).filterMap
      (fun p => (tags p.2).map (fun tg => extinfEntry tg p.1))

/-- `QobuzDL.make_m3u` (core.py:435-481): walk the playlist directory,
collect the entries, and write `<basename>.m3u` into the playlist
directory when more than the `#EXTM3U` header was collected.  Returns
the written file as (path components, content), or `none` when nothing
is written. -/
def make_m3u (no_m3u_for_playlists : Bool)
    (tags : List String → Option TagInfo) (pl_directory : List String)
    (t : DirTree) : Option (List String × String) :=
  if no_m3u_for_playlists then none
  else
    let rel_folder := basenameL pl_directory
    let pl_name := rel_folder ++ ".m3u"
    let track_list := "#EXTM3U" ::
      (walk pl_directory t).flatMap (fun p => dirEntries tags p.1 p.2)
    if 1 < track_list.length then
      some (pl_directory ++ [pl_name], String.intercalate "\n\n" track_list)
    else none

/-- The audio files of a walked tree whose tags read successfully — the
claim-level count of playlist entries. -/
def audioSuccessCount (tags : List String → Option TagInfo)
    (root : List String) (t : DirTree) : Nat :=
  ((walk root t).map (fun p =>
    ((p.2.filter isAudio).filter
      (fun f => (tags (p.1 ++ [f])).isSome)).length)).sum

/-- Resolving an m3u path line against the directory the playlist file
lives in: append the `/`-separated components. -/
def resolveAgainst (plDir : List String) (rel : String) : List String :=
  plDir ++ (pySplit '/' rel.toList).map List.asString

/-! ## Concrete sample inputs used by the theorems below -/

/-- A catalog client whose container metadata carries an `albums` field
without the nested `items` field. -/
def noItemsClient : String → String → List PyVal :=
  fun _ _ => [PyVal.pDict [("name", .pStr "Some Artist"), ("albums", .pDict [])]]

/-- A track search hit with artist and title but no `duration` field. -/
def hitNoDur : PyVal :=
  .pDict [("performer", .pDict [("name", .pStr "A")]), ("title", .pStr "T")]

/-- A raw track-search result containing only `hitNoDur`. -/
def rawNoDur : PyVal := .pDict [("tracks", .pDict [("items", .pList [hitNoDur])])]

/-- A playlist directory with three readable audio files, one audio file
with unreadable tags, and one non-audio file. -/
def sampleTree : DirTree :=
  .mk [] [("d", .mk ["a.mp3", "b.mp3", "c.flac", "bad.flac", "notes.txt"] [])]

/-- Tag reads over `sampleTree`: everything succeeds except
`pl/d/bad.flac`. -/
def sampleTags : List String → Option TagInfo := fun p =>
  if p = ["pl", "d", "bad.flac"] then none else some ⟨"T", "A", 100⟩

/-- A playlist directory whose single audio file sits directly in the
playlist directory itself (depth 0). -/
def rootTree : DirTree := .mk ["a.mp3"] []

/-- Tag reads over `rootTree`. -/
def rootTags : List String → Option TagInfo := fun _ => some ⟨"T", "A", 7⟩

/-! ## Helper lemmas -/

theorem pySplit_ne_nil (sep : Char) (s : List Char) : pySplit sep s ≠ [] := by
  cases s with
  | nil => simp [pySplit]
  | cons c cs =>
    simp only [pySplit]
    cases h : pySplit sep cs with
    | nil => simp
    | cons g r =>
      by_cases hc : c = sep
      · simp [hc]
      · simp [hc]

theorem pySplit_cons_sep (sep : Char) (cs : List Char) :
    pySplit sep (sep :: cs) = [] :: pySplit sep cs := by
  simp only [pySplit]
  cases h : pySplit sep cs with
  | nil => exact absurd h (pySplit_ne_nil sep cs)
  | cons g r => simp

theorem pySplit_append_sep (sep : Char) (xs ys : List Char) :
    pySplit sep (xs ++ sep :: ys) = pySplit sep xs ++ pySplit sep ys := by
  induction xs with
  | nil =>
    rw [List.nil_append, pySplit_cons_sep]
    rfl
  | cons c xs ih =>
    rw [List.cons_append]
    cases h : pySplit sep xs with
    | nil => exact absurd h (pySplit_ne_nil sep xs)
    | cons g r =>
      simp only [pySplit, ih, h, List.cons_append]
      by_cases hc : c = sep
      · simp [hc]
      · simp [hc]

theorem pySplit_no_sep (sep : Char) (ys : List Char)
    (h : ∀ c ∈ ys, c ≠ sep) : pySplit sep ys = [ys] := by
  induction ys with
  | nil => simp [pySplit]
  | cons c cs ih =>
    have hc : c ≠ sep := h c (by simp)
    have ih' := ih (fun x hx => h x (by simp [hx]))
    simp [pySplit, ih', hc]

theorem lStartsWith_append (p xs r : List Char)
    (h : lStartsWith p xs = true) : lStartsWith p (xs ++ r) = true := by
  induction p generalizing xs with
  | nil => simp [lStartsWith]
  | cons a ps ih =>
    cases xs with
    | nil => simp [lStartsWith] at h
    | cons b bs =>
      simp only [lStartsWith, Bool.and_eq_true] at h
      simp only [List.cons_append, lStartsWith, Bool.and_eq_true]
      exact ⟨h.1, ih bs h.2⟩

theorem dropPrefix?_self_append (p r : List Char) :
    dropPrefix? p (p ++ r) = some r := by
  induction p with
  | nil => simp [dropPrefix?]
  | cons a ps ih => simp [dropPrefix?, ih]

theorem dropPrefix?_self (p : List Char) : dropPrefix? p p = some [] := by
  have := dropPrefix?_self_append p []
  simpa using this

theorem dropPrefix?_append_of_le (p x r : List Char)
    (h : p.length ≤ x.length) :
    dropPrefix? p (x ++ r) = (dropPrefix? p x).map (· ++ r) := by
  induction p generalizing x with
  | nil => simp [dropPrefix?]
  | cons a ps ih =>
    cases x with
    | nil => simp at h
    | cons b cs =>
      simp only [List.length_cons, Nat.add_le_add_iff_right] at h
      by_cases hab : a = b
      · simp [dropPrefix?, hab, ih cs h]
      · simp [dropPrefix?, hab]

/-! ## The download ledger and `download_from_id` (claims C1, C2) -/

theorem handle_query_fst (db : Option (List String)) (id : String) :
    (handle_download_id db id false).1 = db := by
  cases db <;> simp [handle_download_id]

/-- Ledger membership exactly as `download_from_id` consults it. -/
def dbContains (db : Option (List String)) (a : String) : Bool :=
  (handle_download_id db a false).2

theorem dbContains_some (l : List String) (a : String) :
    dbContains (some l) a = l.contains a := rfl

theorem download_from_id_of_contains (db : Option (List String))
    (dl : String → DlOutcome) (id : String) (h : dbContains db id = true) :
    download_from_id db dl id = (db, [], ItemResult.skipped) := by
  have h1 := handle_query_fst db id
  simp only [download_from_id]
  rw [show (handle_download_id db id false).2 = true from h, if_pos rfl, h1]

theorem download_from_id_ok (l : List String) (dl : String → DlOutcome)
    (id : String) (hc : l.contains id = false)
    (hdl : dl id = DlOutcome.success) :
    download_from_id (some l) dl id =
      (some (id :: l), [Event.fetch id, Event.insert id],
        ItemResult.succeeded) := by
  have hm : id ∉ l := by simpa using hc
  simp [download_from_id, handle_download_id, hc, hdl, hm]

theorem download_from_id_err (l : List String) (dl : String → DlOutcome)
    (id : String) (hc : l.contains id = false)
    (hdl : dl id ≠ DlOutcome.success) :
    download_from_id (some l) dl id =
      (some l, [Event.fetch id], ItemResult.failed) := by
  have hm : id ∉ l := by simpa using hc
  cases hd : dl id with
  | success => exact absurd hd hdl
  | requestError => simp [download_from_id, handle_download_id, hc, hd, hm]
  | nonStreamable => simp [download_from_id, handle_download_id, hc, hd, hm]

theorem download_from_id_none_ok (dl : String → DlOutcome) (id : String)
    (hdl : dl id = DlOutcome.success) :
    download_from_id none dl id =
      (none, [Event.fetch id, Event.insert id], ItemResult.succeeded) := by
  simp [download_from_id, handle_download_id, hdl]

theorem download_from_id_none_err (dl : String → DlOutcome) (id : String)
    (hdl : dl id ≠ DlOutcome.success) :
    download_from_id none dl id =
      (none, [Event.fetch id], ItemResult.failed) := by
  cases hd : dl id with
  | success => exact absurd hd hdl
  | requestError => simp [download_from_id, handle_download_id, hd]
  | nonStreamable => simp [download_from_id, handle_download_id, hd]

theorem step_mono (db : Option (List String)) (dl : String → DlOutcome)
    (x a : String) (h : dbContains db a = true) :
    dbContains (download_from_id db dl x).1 a = true := by
  cases db with
  | none => simp [dbContains, handle_download_id] at h
  | some l =>
    by_cases hc : l.contains x = true
    · rw [download_from_id_of_contains _ dl x
        (by simpa [dbContains_some] using hc)]
      exact h
    · rw [Bool.not_eq_true] at hc
      by_cases hdl : dl x = DlOutcome.success
      · rw [download_from_id_ok l dl x hc hdl]
        rw [dbContains_some] at h ⊢
        simp only [List.contains_cons, Bool.or_eq_true]
        right
        exact h
      · rw [download_from_id_err l dl x hc hdl]
        exact h

theorem batch_mono (ids : List String) (db : Option (List String))
    (dl : String → DlOutcome) (a : String) (h : dbContains db a = true) :
    dbContains (runBatch db dl ids).1 a = true := by
  induction ids generalizing db with
  | nil => simpa [runBatch]
  | cons x rest ih =>
    simp only [runBatch]
    exact ih _ (step_mono db dl x a h)

theorem step_success_contains (l : List String) (dl : String → DlOutcome)
    (x : String)
    (h : (download_from_id (some l) dl x).2.2 = ItemResult.succeeded) :
    dbContains (download_from_id (some l) dl x).1 x = true := by
  by_cases hc : l.contains x = true
  · rw [download_from_id_of_contains _ dl x
      (by simpa [dbContains_some] using hc)]
    simpa [dbContains_some] using hc
  · rw [Bool.not_eq_true] at hc
    by_cases hdl : dl x = DlOutcome.success
    · rw [download_from_id_ok l dl x hc hdl]
      simp [dbContains_some]
    · rw [download_from_id_err l dl x hc hdl] at h
      simp at h

theorem step_fst_some (l : List String) (dl : String → DlOutcome)
    (x : String) :
    ∃ l1, (download_from_id (some l) dl x).1 = some l1 := by
  by_cases hc : l.contains x = true
  · exact ⟨l, by rw [download_from_id_of_contains _ dl x
      (by simpa [dbContains_some] using hc)]⟩
  · rw [Bool.not_eq_true] at hc
    by_cases hdl : dl x = DlOutcome.success
    · exact ⟨x :: l, by rw [download_from_id_ok l dl x hc hdl]⟩
    · exact ⟨l, by rw [download_from_id_err l dl x hc hdl]⟩

theorem runBatch_cons (db : Option (List String)) (dl : String → DlOutcome)
    (x : String) (rest : List String) :
    (runBatch db dl (x :: rest)).2 =
      ((download_from_id db dl x).2.1, (download_from_id db dl x).2.2) ::
        (runBatch (download_from_id db dl x).1 dl rest).2 := by
  simp [runBatch]

theorem runBatch_fst_cons (db : Option (List String))
    (dl : String → DlOutcome) (x : String) (rest : List String) :
    (runBatch db dl (x :: rest)).1 =
      (runBatch (download_from_id db dl x).1 dl rest).1 := by
  simp [runBatch]

/-- The second run of a batch skips (with an empty event trace: no
downloader call) every position that succeeded in the first run, as long
as the second run starts from a ledger containing everything the first
run's final ledger contains. -/
theorem second_run_skips (ids : List String) (l : List String)
    (dl1 dl2 : String → DlOutcome) (db2 : Option (List String))
    (hle : ∀ a, dbContains (runBatch (some l) dl1 ids).1 a = true →
      dbContains db2 a = true)
    (i : Nat) (ev : List Event) (res : ItemResult)
    (h1 : (runBatch (some l) dl1 ids).2.get? i = some (ev, res))
    (h2 : res = ItemResult.succeeded) :
    (runBatch db2 dl2 ids).2.get? i = some ([], ItemResult.skipped) := by
  induction ids generalizing l db2 i with
  | nil => simp [runBatch] at h1
  | cons x rest ih =>
    obtain ⟨l1, hl1⟩ := step_fst_some l dl1 x
    have hle1 : ∀ a,
        dbContains (runBatch (some l1) dl1 rest).1 a = true →
          dbContains db2 a = true := by
      intro a ha
      apply hle
      rw [runBatch_fst_cons, hl1]
      exact ha
    cases i with
    | zero =>
      subst h2
      rw [runBatch_cons] at h1
      simp only [List.get?_cons_zero, Option.some.injEq, Prod.mk.injEq] at h1
      have hx1 : dbContains (download_from_id (some l) dl1 x).1 x = true :=
        step_success_contains l dl1 x h1.2
      have hx2 : dbContains db2 x = true := by
        apply hle
        rw [runBatch_fst_cons]
        apply batch_mono
        exact hx1
      rw [runBatch_cons, download_from_id_of_contains db2 dl2 x hx2]
      rfl
    | succ j =>
      rw [runBatch_cons] at h1
      simp only [List.get?_cons_succ] at h1
      rw [hl1] at h1
      rw [runBatch_cons]
      simp only [List.get?_cons_succ]
      exact ih l1 (download_from_id db2 dl2 x).1
        (fun a ha => step_mono db2 dl2 x a (hle1 a ha)) j h1

/-- **C1.** `download_from_id` inserts the item id into the download
ledger only after the downloader call returns successfully: an insertion
appears in the event trace only as `[fetch id, insert id]` (after the
transfer, never before); when the id is already recorded, the call
returns with no events and an unchanged ledger; and when the downloader
raises a network or non-streamable error, the ledger is unchanged and
nothing is inserted. -/
theorem C1_insert_only_after_success (db : Option (List String))
    (dl : String → DlOutcome) (id : String) :
    (∀ j, Event.insert j ∈ (download_from_id db dl id).2.1 →
      j = id ∧ dl id = DlOutcome.success ∧
      (download_from_id db dl id).2.1 = [Event.fetch id, Event.insert id]) ∧
    (dbContains db id = true →
      download_from_id db dl id = (db, [], ItemResult.skipped)) ∧
    (dl id ≠ DlOutcome.success →
      (download_from_id db dl id).1 = db ∧
      ∀ j, Event.insert j ∉ (download_from_id db dl id).2.1) := by
  refine ⟨?_, fun h => download_from_id_of_contains db dl id h, ?_⟩
  · intro j hj
    by_cases hc : dbContains db id = true
    · rw [download_from_id_of_contains db dl id hc] at hj
      simp at hj
    · by_cases hdl : dl id = DlOutcome.success
      · cases db with
        | none =>
          rw [download_from_id_none_ok dl id hdl] at hj ⊢
          simp at hj
          simp [hj, hdl]
        | some l =>
          rw [dbContains_some, Bool.not_eq_true] at hc
          rw [download_from_id_ok l dl id hc hdl] at hj ⊢
          simp at hj
          simp [hj, hdl]
      · cases db with
        | none =>
          rw [download_from_id_none_err dl id hdl] at hj
          simp at hj
        | some l =>
          rw [dbContains_some, Bool.not_eq_true] at hc
          rw [download_from_id_err l dl id hc hdl] at hj
          simp at hj
  · intro hdl
    by_cases hc : dbContains db id = true
    · rw [download_from_id_of_contains db dl id hc]
      simp
    · cases db with
      | none =>
        rw [download_from_id_none_err dl id hdl]
        simp
      | some l =>
        rw [dbContains_some, Bool.not_eq_true] at hc
        rw [download_from_id_err l dl id hc hdl]
        simp

/-- Witness for C1 at a concrete input: on a fresh ledger with a
successful transfer, the trace is exactly fetch-then-insert. -/
theorem C1_witness :
    "x" = "x" ∧ (fun _ => DlOutcome.success) "x" = DlOutcome.success ∧
      (download_from_id (some ([] : List String))
        (fun _ => DlOutcome.success) "x").2.1 =
        [Event.fetch "x", Event.insert "x"] :=
  (C1_insert_only_after_success (some []) (fun _ => DlOutcome.success)
    "x").1 "x" (by decide)

/-- **C2.** An id already recorded in the ledger is skipped with no
downloader call, no events and no ledger change; consequently, running
the same batch a second time starting from the first run's final ledger
skips — with an empty event trace, hence zero fetch calls — every
position that succeeded in the first run, whatever the second run's
downloader would do. -/
theorem C2_skip_and_idempotence :
    (∀ (l : List String) (dl : String → DlOutcome) (id : String),
      l.contains id = true →
        download_from_id (some l) dl id = (some l, [], ItemResult.skipped)) ∧
    (∀ (l : List String) (dl1 dl2 : String → DlOutcome) (ids : List String)
      (i : Nat) (ev : List Event) (res : ItemResult),
      (runBatch (some l) dl1 ids).2.get? i = some (ev, res) →
      res = ItemResult.succeeded →
      (runBatch ((runBatch (some l) dl1 ids).1) dl2 ids).2.get? i =
        some ([], ItemResult.skipped)) :=
  ⟨fun l dl id h =>
    download_from_id_of_contains _ dl id (by simpa [dbContains_some] using h),
   fun l dl1 dl2 ids i ev res h1 h2 =>
    second_run_skips ids l dl1 dl2 _ (fun a ha => ha) i ev res h1 h2⟩

/-- Witness for C2 at a concrete input: re-running a two-item batch that
fully succeeded skips the first item even though the second run's
downloader would fail. -/
theorem C2_witness :
    download_from_id (some ["a"]) (fun _ => DlOutcome.success) "a" =
      (some ["a"], [], ItemResult.skipped) ∧
    (runBatch ((runBatch (some ([] : List String))
          (fun _ => DlOutcome.success) ["a", "b"]).1)
        (fun _ => DlOutcome.requestError) ["a", "b"]).2.get? 0 =
      some ([], ItemResult.skipped) :=
  ⟨C2_skip_and_idempotence.1 ["a"] _ "a" (by decide),
   C2_skip_and_idempotence.2 [] _ _ ["a", "b"] 0
     [Event.fetch "a", Event.insert "a"] ItemResult.succeeded (by decide) rfl⟩

/-! ## Claim C6: the last.fm pairing step -/

theorem zipWith_get? {α β γ : Type} (f : α → β → γ) :
    ∀ (as : List α) (bs : List β) (i : Nat) (a : α) (b : β),
      as.get? i = some a → bs.get? i = some b →
      (List.zipWith f as bs).get? i = some (f a b) := by
  intro as
  induction as with
  | nil => intro bs i a b h; simp at h
  | cons x xs ih =>
    intro bs i a b h1 h2
    cases bs with
    | nil => simp at h2
    | cons y ys =>
      cases i with
      | zero =>
        simp only [List.get?_cons_zero, Option.some.injEq] at h1 h2
        simp [List.zipWith, h1, h2]
      | succ j =>
        simp only [List.get?_cons_succ] at h1 h2
        simpa [List.zipWith] using ih ys j a b h1 h2

/-- **C6.** If the scraped artist and title lists differ in length or
either is empty, the last.fm import queues nothing; otherwise the queued
query at position `i` is `artist[i] ++ " " ++ title[i]`. -/
theorem C6_lastfm_pairing :
    (∀ artists titles : List String,
      (artists.length ≠ titles.length ∨ artists = [] ∨ titles = []) →
        download_lastfm_pl artists titles = []) ∧
    (∀ (artists titles : List String) (i : Nat) (a t : String),
      artists.length = titles.length →
      artists.get? i = some a → titles.get? i = some t →
      (download_lastfm_pl artists titles).get? i = some (a ++ " " ++ t)) := by
  constructor
  · intro artists titles h
    simp only [download_lastfm_pl]
    by_cases hcond :
        (artists.length == titles.length && !artists.isEmpty) = true
    · exfalso
      simp only [Bool.and_eq_true, beq_iff_eq, Bool.not_eq_true',
        List.isEmpty_eq_false] at hcond
      rcases h with h | h | h
      · exact h hcond.1
      · exact hcond.2 h
      · rw [h] at hcond
        simp only [List.length_nil] at hcond
        exact hcond.2 (List.eq_nil_of_length_eq_zero hcond.1)
    · rw [if_neg hcond]
      simp
  · intro artists titles i a t hlen h1 h2
    have hne : artists ≠ [] := by
      intro hnil
      rw [hnil] at h1
      simp at h1
    have hA : artists.isEmpty = false := by
      cases artists with
      | nil => exact absurd rfl hne
      | cons _ _ => rfl
    have hcond : (artists.length == titles.length && !artists.isEmpty) = true := by
      simp [hlen, hA]
    have hz := zipWith_get? (fun a t => a ++ " " ++ t) artists titles i a t h1 h2
    have hzne : (List.zipWith (fun a t => a ++ " " ++ t) artists
        titles).isEmpty ≠ true := by
      intro hyp
      rw [List.isEmpty_iff] at hyp
      rw [hyp] at hz
      simp at hz
    simp only [download_lastfm_pl, hcond, if_true]
    rw [if_neg hzne]
    exact hz

/-- Witness for C6 at concrete inputs: lengths 5 and 4 queue nothing,
and a matched pair queues the pairing. -/
theorem C6_witness :
    download_lastfm_pl ["a1", "a2", "a3", "a4", "a5"]
      ["t1", "t2", "t3", "t4"] = [] ∧
    (download_lastfm_pl ["a1"] ["t1"]).get? 0 = some ("a1" ++ " " ++ "t1") :=
  ⟨C6_lastfm_pairing.1 _ _ (by simp),
   C6_lastfm_pairing.2 ["a1"] ["t1"] 0 "a1" "t1" rfl rfl rfl⟩

/-! ## Claim C9: the defensive guard of the m3u walk loop -/

/-- **C9.** The relative-path and absolute-path comprehensions are built
from the same extension filter over the same file list, so they always
have equal length; hence the count-mismatch half of the guard is vacuous
and a visited directory is skipped exactly when it has no file with a
recognized audio extension. -/
theorem audio_lengths_eq (loc : List String) (files : List String) :
    (audioAbsFiles loc files).length = (audioRelFiles loc files).length := by
  simp [audioAbsFiles, audioRelFiles]

theorem m3uGuardSkips_iff (loc : List String) (files : List String) :
    m3uGuardSkips loc files = true ↔ files.filter isAudio = [] := by
  simp [m3uGuardSkips, audioAbsFiles, audioRelFiles, List.isEmpty_iff]

theorem C9_guard_vacuous (loc : List String) (files : List String) :
    (audioAbsFiles loc files).length = (audioRelFiles loc files).length ∧
    (m3uGuardSkips loc files = true ↔ files.filter isAudio = []) :=
  ⟨audio_lengths_eq loc files, m3uGuardSkips_iff loc files⟩

/-! ## Claim C10: falsy fields render as the placeholder -/

/-- **C10.** `PartialFormatter.format_field` renders the placeholder
`"n/a"` for every falsy value — not only for absent fields: a present
field whose value is `0`, the empty string or `None` renders as `"n/a"`;
in particular an artist hit with `albums_count = 0` renders as
`"Artist - (n/a releases)"`. -/
theorem C10_falsy_renders_placeholder :
    (∀ (v : PyVal) (spec : String), pyTruthy v = false →
      format_field v spec = Except.ok "n/a") ∧
    pf_format artistTmpl
        (.pDict [("name", .pStr "Artist"), ("albums_count", .pInt 0)]) =
      Except.ok "Artist - (n/a releases)" := by
  constructor
  · intro v spec h
    simp [format_field, h]
  · rfl

/-- Witness for C10: the value `0` renders as the placeholder. -/
theorem C10_witness : format_field (PyVal.pInt 0) "" = Except.ok "n/a" :=
  C10_falsy_renders_placeholder.1 (PyVal.pInt 0) "" (by decide)

/-! ## Claim C4: the classifier on valid and malformed URLs -/

theorem isW_ne_slash {c : Char} (h : isW c = true) : c ≠ '/' := by
  intro hc
  subst hc
  exact absurd h (by decide)

theorem takeWhile_isW_self (id : List Char) (h : ∀ c ∈ id, isW c = true) :
    id.takeWhile isW = id := by
  induction id with
  | nil => rfl
  | cons c cs ih =>
    have hc := h c (by simp)
    rw [List.takeWhile_cons, if_pos hc, ih (fun x hx => h x (by simp [hx]))]

theorem takeWhile_append_stop (p : Char → Bool) (xs ys : List Char)
    (c : Char) (hall : ∀ x ∈ xs, p x = true) (hc : p c = false) :
    (xs ++ c :: ys).takeWhile p = xs := by
  induction xs with
  | nil => simp [List.takeWhile_cons, hc]
  | cons x rest ih =>
    have hx := hall x (by simp)
    rw [List.cons_append, List.takeWhile_cons, if_pos hx,
      ih (fun y hy => hall y (by simp [hy]))]

theorem dropPrefix?_head_ne (a b : Char) (p s : List Char) (h : ¬ a = b) :
    dropPrefix? (a :: p) (b :: s) = none := by
  simp [dropPrefix?, h]

theorem matchHost_play (Y : List Char) :
    matchHost (strL "play.qobuz.com/" ++ Y) = some Y := by
  have h1 : dropPrefix? (strL "www.qobuz.com/")
      (strL "play.qobuz.com/" ++ Y) = none := by
    rw [dropPrefix?_append_of_le _ _ _ (by decide)]; rfl
  have h2 : dropPrefix? (strL "ww.qobuz.com/")
      (strL "play.qobuz.com/" ++ Y) = none := by
    rw [dropPrefix?_append_of_le _ _ _ (by decide)]; rfl
  have h3 : dropPrefix? (strL "w.qobuz.com/")
      (strL "play.qobuz.com/" ++ Y) = none := by
    rw [dropPrefix?_append_of_le _ _ _ (by decide)]; rfl
  have h4 : dropPrefix? (strL ".qobuz.com/")
      (strL "play.qobuz.com/" ++ Y) = none := by
    rw [dropPrefix?_append_of_le _ _ _ (by decide)]; rfl
  simp only [matchHost, hostLits, tryAlts, h1, h2, h3, h4,
    dropPrefix?_self_append]

theorem matchHost_www (Y : List Char) :
    matchHost (strL "www.qobuz.com/" ++ Y) = some Y := by
  simp only [matchHost, hostLits, tryAlts, dropPrefix?_self_append]

theorem kwPath_album (id : List Char) :
    matchPath (strL "album/" ++ id) = some id := by
  simp only [matchPath, keywordLits, tryAlts, dropPrefix?_self_append]

theorem kwPath_track (id : List Char) :
    matchPath (strL "track/" ++ id) = some id := by
  have h1 : dropPrefix? (strL "album/") (strL "track/" ++ id) = none := by
    rw [dropPrefix?_append_of_le _ _ _ (by decide)]; rfl
  simp only [matchPath, keywordLits, tryAlts, h1, dropPrefix?_self_append]

theorem kwPath_artist (id : List Char) :
    matchPath (strL "artist/" ++ id) = some id := by
  have h1 : dropPrefix? (strL "album/") (strL "artist/" ++ id) = none := by
    rw [dropPrefix?_append_of_le _ _ _ (by decide)]; rfl
  have h2 : dropPrefix? (strL "track/") (strL "artist/" ++ id) = none := by
    rw [dropPrefix?_append_of_le _ _ _ (by decide)]; rfl
  simp only [matchPath, keywordLits, tryAlts, h1, h2,
    dropPrefix?_self_append]

theorem kwPath_playlist (id : List Char) :
    matchPath (strL "playlist/" ++ id) = some id := by
  have h1 : dropPrefix? (strL "album/") (strL "playlist/" ++ id) = none := by
    rw [dropPrefix?_append_of_le _ _ _ (by decide)]; rfl
  have h2 : dropPrefix? (strL "track/") (strL "playlist/" ++ id) = none := by
    rw [dropPrefix?_append_of_le _ _ _ (by decide)]; rfl
  have h3 : dropPrefix? (strL "artist/") (strL "playlist/" ++ id) = none := by
    rw [dropPrefix?_append_of_le _ _ _ (by decide)]; rfl
  simp only [matchPath, keywordLits, tryAlts, h1, h2, h3,
    dropPrefix?_self_append]

theorem kwPath_label (id : List Char) :
    matchPath (strL "label/" ++ id) = some id := by
  have h1 : dropPrefix? (strL "album/") (strL "label/" ++ id) = none := by
    rw [dropPrefix?_append_of_le _ _ _ (by decide)]; rfl
  have h2 : dropPrefix? (strL "track/") (strL "label/" ++ id) = none := by
    rw [dropPrefix?_append_of_le _ _ _ (by decide)]; rfl
  have h3 : dropPrefix? (strL "artist/") (strL "label/" ++ id) = none :=
    dropPrefix?_head_ne 'a' 'l' (strL "rtist/") (strL "abel/" ++ id)
      (by decide)
  have h4 : dropPrefix? (strL "playlist/") (strL "label/" ++ id) = none :=
    dropPrefix?_head_ne 'p' 'l' (strL "laylist/") (strL "abel/" ++ id)
      (by decide)
  simp only [matchPath, keywordLits, tryAlts, h1, h2, h3, h4,
    dropPrefix?_self_append]

theorem pyIndex_5_3 {α : Type} (a b c d e : α) :
    pyIndex [a, b, c, d, e] 3 = .ok d := rfl

theorem pyIndex_7_3 {α : Type} (a b c d e f g : α) :
    pyIndex [a, b, c, d, e, f, g] 3 = .ok d := rfl

theorem pyIndex_7_4 {α : Type} (a b c d e f g : α) :
    pyIndex [a, b, c, d, e, f, g] 4 = .ok e := rfl

theorem get_type_play (tL id : List Char)
    (hmem : urlTypes.contains tL = true)
    (htno : ∀ c ∈ tL, c ≠ '/') (hno : ∀ c ∈ id, c ≠ '/') :
    get_type (strL "https://play.qobuz.com/" ++ (tL ++ '/' :: id)) =
      .ok tL := by
  have hurl : strL "https://play.qobuz.com/" ++ (tL ++ '/' :: id) =
      strL "https:" ++ '/' :: ('/' :: (strL "play.qobuz.com" ++ '/' ::
        (tL ++ '/' :: id))) := rfl
  have hsplit : pySplit '/'
      (strL "https://play.qobuz.com/" ++ (tL ++ '/' :: id)) =
      [strL "https:", [], strL "play.qobuz.com", tL, id] := by
    rw [hurl, pySplit_append_sep, pySplit_cons_sep, pySplit_append_sep,
      pySplit_append_sep, pySplit_no_sep '/' tL htno,
      pySplit_no_sep '/' id hno,
      pySplit_no_sep '/' (strL "https:") (by decide),
      pySplit_no_sep '/' (strL "play.qobuz.com") (by decide)]
    rfl
  simp only [get_type, hsplit]
  rw [lStartsWith_append _ _ _
    (by decide : lStartsWith (strL "http") (strL "https://play.qobuz.com/")
      = true)]
  rw [pyIndex_5_3]
  simp only [hmem]
  simp [hmem]

theorem get_id_play (tL id : List Char)
    (hkw : matchPath (tL ++ '/' :: id) = some id)
    (hW : ∀ c ∈ id, isW c = true) (hne : id ≠ []) :
    get_id (strL "https://play.qobuz.com/" ++ (tL ++ '/' :: id)) =
      some id := by
  have hurl2 : strL "https://play.qobuz.com/" ++ (tL ++ '/' :: id) =
      strL "https://" ++ (strL "play.qobuz.com/" ++ (tL ++ '/' :: id)) := rfl
  have hie : id.isEmpty = false := by
    cases id with
    | nil => exact absurd rfl hne
    | cons _ _ => rfl
  simp only [get_id, matchScheme]
  rw [hurl2, dropPrefix?_self_append]
  simp only [Option.bind_some, Option.some_bind]
  rw [matchHost_play]
  simp only [Option.some_bind]
  rw [hkw]
  simp only [Option.some_bind]
  rw [takeWhile_isW_self id hW, hie]
  simp

theorem classify_play (tL id : List Char)
    (hmem : urlTypes.contains tL = true)
    (hkw : matchPath (tL ++ '/' :: id) = some id)
    (htno : ∀ c ∈ tL, c ≠ '/')
    (hW : ∀ c ∈ id, isW c = true) (hne : id ≠ []) :
    classify (strL "https://play.qobuz.com/" ++ (tL ++ '/' :: id)) =
      .ok (tL, id) := by
  have hno : ∀ c ∈ id, c ≠ '/' := fun c hc => isW_ne_slash (hW c hc)
  simp only [classify]
  rw [get_type_play tL id hmem htno hno]
  simp only [hmem, if_true]
  rw [get_id_play tL id hkw hW hne]

theorem get_type_store (slug id : List Char)
    (hsno : ∀ c ∈ slug, c ≠ '/') (hno : ∀ c ∈ id, c ≠ '/') :
    get_type (strL "https://www.qobuz.com/us-en/album/" ++
      (slug ++ '/' :: id)) = .ok (strL "album") := by
  have hurl : strL "https://www.qobuz.com/us-en/album/" ++
      (slug ++ '/' :: id) =
      strL "https:" ++ '/' :: ('/' :: (strL "www.qobuz.com" ++ '/' ::
        (strL "us-en" ++ '/' :: (strL "album" ++ '/' ::
          (slug ++ '/' :: id))))) := rfl
  have hsplit : pySplit '/' (strL "https://www.qobuz.com/us-en/album/" ++
      (slug ++ '/' :: id)) =
      [strL "https:", [], strL "www.qobuz.com", strL "us-en", strL "album",
        slug, id] := by
    rw [hurl, pySplit_append_sep, pySplit_cons_sep, pySplit_append_sep,
      pySplit_append_sep, pySplit_append_sep, pySplit_append_sep,
      pySplit_no_sep '/' slug hsno, pySplit_no_sep '/' id hno,
      pySplit_no_sep '/' (strL "https:") (by decide),
      pySplit_no_sep '/' (strL "www.qobuz.com") (by decide),
      pySplit_no_sep '/' (strL "us-en") (by decide),
      pySplit_no_sep '/' (strL "album") (by decide)]
    rfl
  simp only [get_type, hsplit]
  rw [lStartsWith_append _ _ _
    (by decide : lStartsWith (strL "http")
      (strL "https://www.qobuz.com/us-en/album/") = true)]
  rw [pyIndex_7_3]
  simp [show urlTypes.contains (strL "us-en") = false from by decide,
    show ¬(strL "us-en" = strL "user") from by decide, pyIndex_7_4]
  intro hmm
  exact absurd hmm (by decide)

theorem get_id_store (slug id : List Char)
    (hslug : isSlug slug = true)
    (hW : ∀ c ∈ id, isW c = true) (hne : id ≠ []) :
    get_id (strL "https://www.qobuz.com/us-en/album/" ++
      (slug ++ '/' :: id)) = some id := by
  have hurl2 : strL "https://www.qobuz.com/us-en/album/" ++
      (slug ++ '/' :: id) =
      strL "https://" ++ (strL "www.qobuz.com/" ++
        (strL "us-en/album/" ++ (slug ++ '/' :: id))) := rfl
  have hie : id.isEmpty = false := by
    cases id with
    | nil => exact absurd rfl hne
    | cons _ _ => rfl
  have hallslug : ∀ x ∈ slug, (isW x || x = '-') = true := by
    have h := hslug
    simp only [isSlug, Bool.and_eq_true, List.all_eq_true] at h
    exact h.1.1
  have hk1 : dropPrefix? (strL "album/")
      (strL "us-en/album/" ++ (slug ++ '/' :: id)) = none := by
    rw [dropPrefix?_append_of_le _ _ _ (by decide)]; rfl
  have hk2 : dropPrefix? (strL "track/")
      (strL "us-en/album/" ++ (slug ++ '/' :: id)) = none := by
    rw [dropPrefix?_append_of_le _ _ _ (by decide)]; rfl
  have hk3 : dropPrefix? (strL "artist/")
      (strL "us-en/album/" ++ (slug ++ '/' :: id)) = none := by
    rw [dropPrefix?_append_of_le _ _ _ (by decide)]; rfl
  have hk4 : dropPrefix? (strL "playlist/")
      (strL "us-en/album/" ++ (slug ++ '/' :: id)) = none := by
    rw [dropPrefix?_append_of_le _ _ _ (by decide)]; rfl
  have hk5 : dropPrefix? (strL "label/")
      (strL "us-en/album/" ++ (slug ++ '/' :: id)) = none := by
    rw [dropPrefix?_append_of_le _ _ _ (by decide)]; rfl
  have hstore : matchStorePath (strL "us-en/album/" ++
      (slug ++ '/' :: id)) = some id := by
    have hform : strL "us-en/album/" ++ (slug ++ '/' :: id) =
        'u' :: 's' :: '-' :: 'e' :: 'n' ::
          (strL "/album/" ++ (slug ++ '/' :: id)) := rfl
    rw [hform]
    simp only [matchStorePath]
    rw [show ('u'.isLower && 's'.isLower && decide True && 'e'.isLower &&
      'n'.isLower) = true from by decide, if_pos rfl]
    rw [dropPrefix?_self_append]
    simp only [Option.some_bind, matchSlugSlash]
    rw [takeWhile_append_stop _ slug id '/' hallslug (by decide)]
    rw [hslug, if_pos rfl, List.drop_left]
    rfl
  have hpath : matchPath (strL "us-en/album/" ++ (slug ++ '/' :: id)) =
      some id := by
    simp only [matchPath, keywordLits, tryAlts, hk1, hk2, hk3, hk4, hk5,
      hstore]
  simp only [get_id, matchScheme]
  rw [hurl2, dropPrefix?_self_append]
  simp only [Option.some_bind]
  rw [matchHost_www]
  simp only [Option.some_bind]
  rw [hpath]
  simp only [Option.some_bind]
  rw [takeWhile_isW_self id hW, hie]
  simp

theorem classify_store (slug id : List Char)
    (hslug : isSlug slug = true)
    (hW : ∀ c ∈ id, isW c = true) (hne : id ≠ []) :
    classify (strL "https://www.qobuz.com/us-en/album/" ++
      (slug ++ '/' :: id)) = .ok (strL "album", id) := by
  have hno : ∀ c ∈ id, c ≠ '/' := fun c hc => isW_ne_slash (hW c hc)
  have hsno : ∀ c ∈ slug, c ≠ '/' := by
    intro c hc hq
    have h := hslug
    simp only [isSlug, Bool.and_eq_true, List.all_eq_true] at h
    have := h.1.1 c hc
    rw [hq] at this
    exact absurd this (by decide)
  simp only [classify]
  rw [get_type_store slug id hsno hno]
  simp only [show urlTypes.contains (strL "album") = true from by decide,
    if_true]
  rw [get_id_store slug id hslug hW hne]

/-- **C4 (counterexample).** The claim says every malformed input fails
with an error kind that the caller handles by skipping.  But for a URL
whose type segment is recognized while its id part has no word
characters, `get_id`'s regex does not match and `None.group(1)` raises
`AttributeError` — which the `except (KeyError, IndexError)` of
`handle_url` does not catch, so it propagates out of `handle_url`
unhandled. -/
theorem C4_counterexample :
    classify (strL "https://play.qobuz.com/album/!!!") =
      .error .attributeError ∧
    handle_url (fun _ _ => []) (strL "https://play.qobuz.com/album/!!!") =
      .error .attributeError :=
  ⟨rfl, rfl⟩

/-- **C4 (amended).** Valid catalog URLs of the five recognized types —
`play.qobuz.com/<type>/<id>` with a nonempty word-character id, and
locale-prefixed store album URLs with a valid artist slug — classify to
the correct `(type, id)` pair.  A malformed input whose type segment is
missing fails with `IndexError`, and one whose type segment is
unrecognized fails with `KeyError`; both are caught by `handle_url`,
which skips the reference.  But an input with a recognized type segment
whose id part does not match the pattern fails with `AttributeError`,
which `handle_url` does not catch: the exception propagates unhandled,
for every catalog client. -/
theorem C4_classification :
    (∀ id : List Char, id ≠ [] → (∀ c ∈ id, isW c = true) →
      classify (strL "https://play.qobuz.com/album/" ++ id) =
        .ok (strL "album", id) ∧
      classify (strL "https://play.qobuz.com/track/" ++ id) =
        .ok (strL "track", id) ∧
      classify (strL "https://play.qobuz.com/artist/" ++ id) =
        .ok (strL "artist", id) ∧
      classify (strL "https://play.qobuz.com/playlist/" ++ id) =
        .ok (strL "playlist", id) ∧
      classify (strL "https://play.qobuz.com/label/" ++ id) =
        .ok (strL "label", id)) ∧
    (∀ slug id : List Char, isSlug slug = true → id ≠ [] →
      (∀ c ∈ id, isW c = true) →
      classify (strL "https://www.qobuz.com/us-en/album/" ++
        (slug ++ '/' :: id)) = .ok (strL "album", id)) ∧
    (classify (strL "https://example.com/foo/bar") = .error .keyError ∧
      handle_url (fun _ _ => []) (strL "https://example.com/foo/bar") =
        .ok []) ∧
    (classify (strL "https://x") = .error .indexError ∧
      handle_url (fun _ _ => []) (strL "https://x") = .ok []) ∧
    (∀ client, handle_url client (strL "https://play.qobuz.com/album/!!!") =
      .error .attributeError) := by
  refine ⟨?_, ?_, ⟨rfl, rfl⟩, ⟨rfl, rfl⟩, fun _ => rfl⟩
  · intro id hne hW
    exact ⟨classify_play (strL "album") id (by decide) (kwPath_album id)
        (by decide) hW hne,
      classify_play (strL "track") id (by decide) (kwPath_track id)
        (by decide) hW hne,
      classify_play (strL "artist") id (by decide) (kwPath_artist id)
        (by decide) hW hne,
      classify_play (strL "playlist") id (by decide) (kwPath_playlist id)
        (by decide) hW hne,
      classify_play (strL "label") id (by decide) (kwPath_label id)
        (by decide) hW hne⟩
  · intro slug id hslug hne hW
    exact classify_store slug id hslug hW hne

/-- Witness for C4 at a concrete input: a play-store album URL with id
`abc123` classifies to `("album", "abc123")`. -/
theorem C4_witness :
    classify (strL "https://play.qobuz.com/album/" ++ strL "abc123") =
      .ok (strL "album", strL "abc123") :=
  (C4_classification.1 (strL "abc123") (by decide) (by decide)).1

/-! ## Claim C3: container metadata errors in `handle_url` -/

theorem except_bind_ok {α β : Type} (a : α) (f : α → Except PyErr β) :
    (Except.ok a >>= f) = f a := rfl

theorem except_bind_err {α β : Type} (e : PyErr) (f : α → Except PyErr β) :
    (Except.error e >>= f : Except PyErr β) = Except.error e := rfl

theorem iterKey_vals (t : String) (key : String)
    (h : iterKey t = some key) : key = "tracks" ∨ key = "albums" := by
  unfold iterKey at h
  split at h
  · left; exact (Option.some.injEq _ _).mp h.symm
  · right; exact (Option.some.injEq _ _).mp h.symm
  · right; exact (Option.some.injEq _ _).mp h.symm
  · exact absurd h (by simp)

theorem iterKey_ne_name (t : String) (key : String)
    (h : iterKey t = some key) : ¬ (key = "name") := by
  rcases iterKey_vals t key h with h1 | h1 <;> subst h1 <;> decide

/-- **C3 (counterexample).** A container whose catalog metadata lacks
the nested `items` field makes `handle_url` raise an uncaught
`KeyError` (the container-expansion code sits outside the `try` of
`handle_url`), and the error propagates through
`download_list_of_urls`, so the sibling reference after it is never
processed. -/
theorem C3_counterexample :
    handle_url noItemsClient (strL "https://play.qobuz.com/artist/123") =
      .error .keyError ∧
    download_list_of_urls noItemsClient
      [strL "https://play.qobuz.com/artist/123",
       strL "https://play.qobuz.com/album/a1"] = .error .keyError :=
  ⟨rfl, rfl⟩

/-- **C3 (amended).** A container reference whose catalog metadata is
structurally unexpected does *not* yield a logged skip: an empty
metadata list raises `IndexError` (`content[0]`), a first item without
the `iterable_key` field raises `KeyError`, both escape `handle_url`
(its `try` covers only classification), and any such error aborts the
remaining sibling references of a batch.  Only classification failures
(`KeyError`/`IndexError` from `get_type`, the `possibles` lookup or
`get_id`) are caught and produce zero leaf tasks with a logged skip. -/
theorem C3_container_metadata_errors :
    (∀ (client : String → String → List PyVal) (url t i : List Char)
      (key : String),
      classify url = .ok (t, i) → iterKey t.asString = some key →
      client t.asString i.asString = [] →
      handle_url client url = .error .indexError) ∧
    (∀ (client : String → String → List PyVal) (url t i : List Char)
      (key : String) (nm : PyVal),
      classify url = .ok (t, i) → iterKey t.asString = some key →
      client t.asString i.asString = [PyVal.pDict [("name", nm)]] →
      handle_url client url = .error .keyError) ∧
    (∀ (client : String → String → List PyVal) (u : List Char)
      (us : List (List Char)) (e : PyErr),
      handle_url client u = .error e →
      download_list_of_urls client (u :: us) = .error e) ∧
    (∀ (client : String → String → List PyVal) (url : List Char),
      (classify url = .error .keyError ∨
        classify url = .error .indexError) →
      handle_url client url = .ok []) := by
  refine ⟨?_, ?_, ?_, ?_⟩
  · intro client url t i key hclass hkey hclient
    simp only [handle_url, hclass, hkey, hclient]
    rfl
  · intro client url t i key nm hclass hkey hclient
    have hb : (key == ("name" : String)) = false := by
      have hne := iterKey_ne_name t.asString key hkey
      simp [hne]
    have hget : pyGet (PyVal.pDict [("name", nm)]) key =
        .error .keyError := by
      simp only [pyGet, List.lookup, hb]
    simp only [handle_url, hclass, hkey, hclient]
    simp only [expandContainer, pyIndex, List.mapM, List.mapM.loop,
      except_bind_ok, except_bind_err, hget]
    rfl
  · intro client u us e h
    simp only [download_list_of_urls, List.mapM, List.mapM.loop, h,
      except_bind_err]
  · intro client url h
    rcases h with h | h <;> simp only [handle_url, h]

/-- Witness for C3 (amended) at a concrete input: a label container
whose metadata list is empty raises `IndexError` out of `handle_url`. -/
theorem C3_witness :
    handle_url (fun _ _ => ([] : List PyVal))
      (strL "https://play.qobuz.com/label/9") = .error .indexError :=
  C3_container_metadata_errors.1 (fun _ _ => []) _ (strL "label")
    (strL "9") "albums" rfl rfl rfl

/-! ## Claim C5: tolerance of the search-result rendering -/

/-- **C5 (counterexample).** The claim says a track hit without the
`duration` field renders with the `"n/a"` placeholder.  It does not:
`i["duration"]` is a direct subscript outside the `PartialFormatter`, it
raises `KeyError`, the blanket `except (KeyError, IndexError)` of
`search_by_type` catches it, and the whole search call returns `None` —
no line is rendered at all. -/
theorem C5_counterexample :
    renderHit trackTmpl true hitNoDur = .error .keyError ∧
    search_by_type rawNoDur "track" = .ok none :=
  ⟨rfl, rfl⟩

/-- **C5 (amended).** Fields accessed *through the format template*
are tolerant: an absent field renders as the `"n/a"` placeholder, and a
truthy field whose value is incompatible with its format spec renders as
the placeholder instead of raising.  But `duration` (and
`hires_streamable`) of track and album hits are accessed directly
outside the formatter: when `duration` is absent the hit's rendering
raises `KeyError`, which the surrounding handler of `search_by_type`
catches by making the whole search return `None` — no placeholder line
is produced. -/
theorem C5_formatter_tolerance :
    (∀ title : String, ¬ (title = "") →
      pf_format trackTmpl (.pDict [("title", .pStr title)]) =
        .ok ("n/a - " ++ title)) ∧
    (∀ (v : PyVal) (spec : String), pyTruthy v = true →
      pyFormat v spec = .error .valueError →
      format_field v spec = .ok "n/a") ∧
    (renderHit trackTmpl true hitNoDur = .error .keyError ∧
      search_by_type rawNoDur "track" = .ok none) := by
  refine ⟨?_, ?_, rfl, rfl⟩
  · intro title h
    have htr : pyTruthy (PyVal.pStr title) = true := by
      simp [pyTruthy, h]
    simp [pf_format, trackTmpl, List.mapM, List.mapM.loop,
      pf_get_field, lookupPath, pyGet, List.lookup, except_bind_ok,
      except_bind_err, format_field, htr, pyFormat, String.join]
    rw [show pyTruthy PyVal.pNone = false from rfl, if_pos rfl,
      except_bind_ok]
    simp only [pyStrOf, Except.ok.injEq]
    rw [show (("n/a" : String) ++ " - ") = "n/a - " from by decide]
  · intro v spec htr hbad
    simp only [format_field, htr, hbad]
    rfl

/-- Witness for C5 (amended) at concrete inputs: a hit missing the
performer renders with the placeholder, and a string with format spec
`d` renders as the placeholder. -/
theorem C5_witness :
    pf_format trackTmpl (.pDict [("title", .pStr "T")]) =
      .ok ("n/a - " ++ "T") ∧
    format_field (.pStr "x") "d" = .ok "n/a" :=
  ⟨C5_formatter_tolerance.1 "T" (by decide),
   C5_formatter_tolerance.2.1 (.pStr "x") "d" (by decide) rfl⟩

/-! ## Claims C7 and C8: the playlist assembler -/

theorem dirEntries_eq (tags : List String → Option TagInfo)
    (loc files : List String) :
    dirEntries tags loc files = (files.filter isAudio).filterMap
      (fun f => (tags (loc ++ [f])).map
        (fun tg => extinfEntry tg (basenameL loc ++ "/" ++ f))) := by
  unfold dirEntries
  by_cases hg : m3uGuardSkips loc files = true
  · rw [if_pos hg, (m3uGuardSkips_iff loc files).mp hg]
    rfl
  · rw [if_neg hg]
    unfold audioRelFiles audioAbsFiles
    rw [List.zip_map', List.filterMap_map]
    rfl

theorem length_filterMap_map_option {α β γ : Type} (l : List α)
    (o : α → Option β) (g : α → β → γ) :
    (l.filterMap (fun a => (o a).map (g a))).length =
      (l.filter (fun a => (o a).isSome)).length := by
  induction l with
  | nil => rfl
  | cons x rest ih =>
    cases ho : o x <;>
      simp [List.filterMap_cons, List.filter_cons, ho, ih]

theorem entries_length (tags : List String → Option TagInfo)
    (l : List (List String × List String)) :
    (l.flatMap (fun p => dirEntries tags p.1 p.2)).length =
      (l.map (fun p => ((p.2.filter isAudio).filter
        (fun f => (tags (p.1 ++ [f])).isSome)).length)).sum := by
  induction l with
  | nil => rfl
  | cons x rest ih =>
    rw [List.flatMap_cons, List.map_cons, List.sum_cons,
      List.length_append, ih, dirEntries_eq, length_filterMap_map_option]

/-- **C7.** With playlist generation enabled, `make_m3u` collects
exactly one `#EXTINF` entry per recognized audio file whose tags read
successfully (files with failing tag reads are omitted without aborting
the build), and a playlist file named `<basename>.m3u` is written inside
the target directory if and only if at least one entry was collected. -/
theorem C7_m3u_entries (tags : List String → Option TagInfo)
    (plDir : List String) (t : DirTree) :
    ((walk plDir t).flatMap (fun p => dirEntries tags p.1 p.2)).length =
      audioSuccessCount tags plDir t ∧
    ((make_m3u false tags plDir t).isSome ↔
      1 ≤ audioSuccessCount tags plDir t) ∧
    (∀ out, make_m3u false tags plDir t = some out →
      out.1 = plDir ++ [basenameL plDir ++ ".m3u"]) := by
  have hlen : ((walk plDir t).flatMap
      (fun p => dirEntries tags p.1 p.2)).length =
      audioSuccessCount tags plDir t :=
    entries_length tags (walk plDir t)
  refine ⟨hlen, ?_, ?_⟩
  · simp only [make_m3u, Bool.false_eq_true, if_false]
    by_cases hl : 1 < ("#EXTM3U" :: (walk plDir t).flatMap
        (fun p => dirEntries tags p.1 p.2)).length
    · rw [if_pos hl]
      simp only [Option.isSome_some, true_iff]
      rw [← hlen]
      simp only [List.length_cons] at hl
      omega
    · rw [if_neg hl]
      simp only [Option.isSome_none, Bool.false_eq_true, false_iff]
      rw [← hlen]
      simp only [List.length_cons] at hl
      omega
  · intro out hout
    simp only [make_m3u, Bool.false_eq_true, if_false] at hout
    by_cases hl : 1 < ("#EXTM3U" :: (walk plDir t).flatMap
        (fun p => dirEntries tags p.1 p.2)).length
    · rw [if_pos hl] at hout
      cases hout
      rfl
    · rw [if_neg hl] at hout
      exact absurd hout (by simp)

/-- Witness for C7 at a concrete input: the playlist directory with 3
readable audio files, 1 audio file with failing tags and 1 non-audio
file collects exactly 3 entries, and the written playlist lands inside
the target directory as `pl.m3u`. -/
theorem C7_witness :
    ((walk ["pl"] sampleTree).flatMap
      (fun p => dirEntries sampleTags p.1 p.2)).length =
      audioSuccessCount sampleTags ["pl"] sampleTree ∧
    audioSuccessCount sampleTags ["pl"] sampleTree = 3 ∧
    (["pl", "pl.m3u"] : List String) = ["pl"] ++ ["pl" ++ ".m3u"] := by
  have hw : walk ["pl"] sampleTree =
      [(["pl"], []),
       (["pl", "d"], ["a.mp3", "b.mp3", "c.flac", "bad.flac",
         "notes.txt"])] := by
    simp [sampleTree, walk, sortDirs, List.insertionSort]
  have hcount : audioSuccessCount sampleTags ["pl"] sampleTree = 3 := by
    unfold audioSuccessCount
    rw [hw]
    rfl
  refine ⟨(C7_m3u_entries sampleTags ["pl"] sampleTree).1, hcount, ?_⟩
  exact (C7_m3u_entries sampleTags ["pl"] sampleTree).2.2
    (["pl", "pl.m3u"],
      String.intercalate "\n\n" ("#EXTM3U" :: (walk ["pl"] sampleTree).flatMap
        (fun p => dirEntries sampleTags p.1 p.2)))
    (by
      simp only [make_m3u, Bool.false_eq_true, if_false]
      rw [if_pos (show 1 < _ from by rw [hw]; decide)]
      rfl)

theorem asString_toList (s : String) : s.toList.asString = s := by
  cases s
  rfl

theorem asString_data (s : String) : s.data.asString = s := by
  cases s
  rfl

theorem toList_append (a b : String) :
    (a ++ b).toList = a.toList ++ b.toList := by
  cases a
  cases b
  rfl

/-- **C8 (counterexample).** The claim says the path line of every
entry is the file's path relative to the playlist's own directory.  For
a file sitting directly in the playlist directory `pl`, the emitted
line is `pl/a.mp3` (`join(basename(local), file)` with `local = pl`);
resolving it against the playlist's directory gives
`pl/pl/a.mp3`, not the audio file `pl/a.mp3`. -/
theorem C8_counterexample :
    make_m3u false rootTags ["pl"] rootTree =
      some (["pl", "pl.m3u"], "#EXTM3U\n\n#EXTINF:7, A - T\npl/a.mp3") ∧
    resolveAgainst ["pl"] "pl/a.mp3" ≠ ["pl", "a.mp3"] := by
  constructor
  · have hw : walk ["pl"] rootTree = [(["pl"], ["a.mp3"])] := by
      simp only [rootTree, walk]
      rw [show sortDirs [] = [] from rfl]
      simp
    simp only [make_m3u, Bool.false_eq_true, if_false]
    rw [hw]
    rfl
  · decide

/-- **C8 (amended).** The path line emitted for an audio file is
`join(basename(containing directory), filename)`.  Resolving that line
against the playlist's own directory yields the file exactly when the
containing directory is an immediate sub-directory of the playlist
directory; for a file directly in the playlist directory, and for a
file two levels deep, the resolved path is not the file's path. -/
theorem C8_relative_paths :
    (∀ (loc files : List String) (f : String),
      f ∈ files → isAudio f = true →
      (basenameL loc ++ "/" ++ f) ∈ audioRelFiles loc files) ∧
    (∀ (plDir : List String) (d f : String),
      (∀ c ∈ d.toList, c ≠ '/') → (∀ c ∈ f.toList, c ≠ '/') →
      resolveAgainst plDir (d ++ "/" ++ f) = (plDir ++ [d]) ++ [f]) ∧
    (∀ (plDir : List String) (f : String),
      (∀ c ∈ (basenameL plDir).toList, c ≠ '/') →
      (∀ c ∈ f.toList, c ≠ '/') →
      resolveAgainst plDir (basenameL plDir ++ "/" ++ f) ≠ plDir ++ [f]) ∧
    (∀ (plDir : List String) (d1 d2 f : String),
      (∀ c ∈ d2.toList, c ≠ '/') → (∀ c ∈ f.toList, c ≠ '/') →
      resolveAgainst plDir (d2 ++ "/" ++ f) ≠
        (plDir ++ [d1, d2]) ++ [f]) := by
  have hres : ∀ (plDir : List String) (d f : String),
      (∀ c ∈ d.toList, c ≠ '/') → (∀ c ∈ f.toList, c ≠ '/') →
      resolveAgainst plDir (d ++ "/" ++ f) = plDir ++ [d, f] := by
    intro plDir d f hd hf
    unfold resolveAgainst
    rw [show (d ++ "/" ++ f).toList = d.toList ++ '/' :: f.toList from by
      rw [toList_append, toList_append, List.append_assoc]
      rfl]
    rw [pySplit_append_sep, pySplit_no_sep '/' _ hd,
      pySplit_no_sep '/' _ hf]
    simp [asString_toList, asString_data]
  refine ⟨?_, ?_, ?_, ?_⟩
  · intro loc files f hf ha
    unfold audioRelFiles
    exact List.mem_map.mpr ⟨f, List.mem_filter.mpr ⟨hf, ha⟩, rfl⟩
  · intro plDir d f hd hf
    rw [hres plDir d f hd hf]
    simp
  · intro plDir f hb hf heq
    rw [hres plDir _ f hb hf] at heq
    have := congrArg List.length heq
    simp at this
  · intro plDir d1 d2 f hd hf heq
    rw [hres plDir d2 f hd hf] at heq
    have hL := congrArg List.length heq
    simp at hL

/-- Witness for C8 (amended) at a concrete input: for a file in the
immediate sub-directory `d` of playlist directory `pl`, the emitted line
resolves back to the file. -/
theorem C8_witness :
    resolveAgainst ["pl"] ("d" ++ "/" ++ "a.mp3") =
      (["pl"] ++ ["d"]) ++ ["a.mp3"] :=
  C8_relative_paths.2.1 ["pl"] "d" "a.mp3" (by decide) (by decide)

end QobuzCore
